import Mathlib

/-!
# Verification of the WWDTM Panelist Appearance Report Generator

Shallow embedding of `run.py`.  The script issues read-only SQL queries,
aggregates the returned rows into nested ordered mappings, resolves its
configuration from a JSON file merged with command-line overrides, and
writes a rendered report plus a CSS file to an output directory.

Modelling choices:
* Python `OrderedDict` / `dict` values are association lists
  (`List (κ × ν)`); assignment updates an existing key in place keeping its
  position, otherwise appends at the end, exactly the `OrderedDict`
  semantics used by the script.
* The SQL queries are embedded as functions of the underlying tables:
  `GROUP BY year ... ORDER BY year ASC` on a multiset of show years becomes
  "distinct years in ascending order, each paired with its multiplicity";
  `SELECT DISTINCT ... ORDER BY panelist ASC` becomes dedup-then-sort of the
  joined rows.
* File-system effects of `generate_output_files` are explicit state passing
  over a `FileSys` record; a fatal exception is `Except.error`, the one
  `print`-and-continue branch accumulates a log message instead.
-/

namespace WWDTM

/-- Association-list lookup: first binding wins (Python dict keys are
unique, so at most one binding exists in reachable states). -/
def dictGet {κ ν : Type} [DecidableEq κ] : List (κ × ν) → κ → Option ν
  | [], _ => none
  | (k', v) :: rest, k => if k = k' then some v else dictGet rest k

/-- Association-list assignment with Python `dict` / `OrderedDict`
semantics: an existing key is updated in place keeping its position, a new
key is appended at the end. -/
def dictSet {κ ν : Type} [DecidableEq κ] : List (κ × ν) → κ → ν → List (κ × ν)
  | [], k, v => [(k, v)]
  | (k', v') :: rest, k, v =>
      if k = k' then (k, v) :: rest else (k', v') :: dictSet rest k v

/-- Insert a year into a strictly ascending list, keeping it strictly
ascending and duplicate-free.  Building block for the semantics of
`SELECT DISTINCT YEAR(...) ... ORDER BY YEAR(...) ASC`. -/
def insertYear (y : Int) : List Int → List Int
  | [] => [y]
  | z :: zs =>
      if y < z then y :: z :: zs
      else if y = z then z :: zs
      else z :: insertYear y zs

/-- The distinct years of a multiset of show years, in ascending order:
the result set of `SELECT DISTINCT YEAR(s.showdate) ... ORDER BY
YEAR(s.showdate) ASC`. -/
def distinctAsc (ys : List Int) : List Int := ys.foldr insertYear []

/-- The relational data the queries range over, restricted to what the
queries use: `ww_panelists` rows as `(panelistid, panelist)` pairs, and
the countable appearance events — one `(panelistid, show-year)` pair per
`ww_showpnlmap` row whose show passes the `bestof = 0 AND repeatshowid IS
NULL` filter. -/
structure Db where
  panelists : List (Int × String)
  appearances : List (Int × Int)

/-- Keys of the per-panelist `OrderedDict` built by
`retrieve_panelist_appearance_counts`: integer show years co-mingled with
the sentinel string key `"total"`. -/
inductive AppKey
  | year (y : Int)
  | total
deriving DecidableEq

/-- The multiset of countable show years for one panelist: what the
per-panelist query aggregates over after its `WHERE` filter. -/
def showYearsOf (db : Db) (panelist_id : Int) : List Int :=
  (db.appearances.filter (fun a => a.1 = panelist_id)).map Prod.snd

/-- Result rows of the per-panelist query
`SELECT YEAR(..) AS year, COUNT(..) AS count ... GROUP BY .., YEAR(..)
ORDER BY .., YEAR(..) ASC`: one `(year, count)` row per distinct year,
in ascending year order. -/
def panelistQueryRows (showYears : List Int) : List (Int × Nat) :=
  (distinctAsc showYears).map (fun y => (y, showYears.count y))

/-- `retrieve_panelist_appearance_counts` (run.py lines 18-45): runs the
per-panelist query; returns `None` when the result set is empty, otherwise
folds the rows into an `OrderedDict` in row order while accumulating
`total_appearances`, and finally assigns the `"total"` key. -/
def retrieve_panelist_appearance_counts (showYears : List Int) :
    Option (List (AppKey × Nat)) :=
  let result := panelistQueryRows showYears
  if result = [] then none
  else
    let st := result.foldl
      (fun (st : List (AppKey × Nat) × Nat) row =>
        (dictSet st.1 (AppKey.year row.1) row.2, st.2 + row.2)) ([], 0)
    some (dictSet st.1 AppKey.total st.2)

/-- Lexicographic less-or-equal on character lists by code point — the
ordering `ORDER BY p.panelist ASC` sorts by, written structurally so the
kernel can evaluate it. -/
def listCharLe : List Char → List Char → Bool
  | [], _ => true
  | _ :: _, [] => false
  | c :: cs, d :: ds =>
      if c.toNat < d.toNat then true
      else if d.toNat < c.toNat then false
      else listCharLe cs ds

/-- Lexicographic less-or-equal on strings by code point. -/
def strLe (a b : String) : Bool := listCharLe a.data b.data

/-- Stable insertion by panelist name, ascending: building block for
`ORDER BY p.panelist ASC`. -/
def insertByName (p : Int × String) : List (Int × String) → List (Int × String)
  | [] => [p]
  | q :: qs => if strLe p.2 q.2 then p :: q :: qs else q :: insertByName p qs

def sortByName (l : List (Int × String)) : List (Int × String) :=
  l.foldr insertByName []

/-- The join `ww_showpnlmap JOIN ww_panelists JOIN ww_shows` restricted to
countable shows, projected to `(panelistid, panelist)` — one row per
(appearance event, matching panelist row) pair. -/
def joinRows (db : Db) : List (Int × String) :=
  db.appearances.foldr
    (fun a acc => db.panelists.filter (fun p => p.1 = a.1) ++ acc) []

/-- Result rows of `SELECT DISTINCT p.panelistid, p.panelist ... ORDER BY
p.panelist ASC` (run.py lines 53-58). -/
def allPanelistsQuery (db : Db) : List (Int × String) :=
  sortByName (joinRows db).dedup

/-- `retrieve_all_panelist_appearance_counts` (run.py lines 47-75): runs
the distinct-panelists query; returns `None` when it is empty, otherwise
builds one `{name, appearances}` record per row, where `appearances` is
the per-panelist aggregation for that row's `panelistid`. -/
def retrieve_all_panelist_appearance_counts (db : Db) :
    Option (List (String × Option (List (AppKey × Nat)))) :=
  let result := allPanelistsQuery db
  if result = [] then none
  else
    some (result.map (fun pr =>
      (pr.2, retrieve_panelist_appearance_counts (showYearsOf db pr.1))))

/-- `retrieve_all_years` (run.py lines 77-93): runs
`SELECT DISTINCT YEAR(s.showdate) FROM ww_shows ORDER BY ... ASC`
(unfiltered by best-of/repeat); returns `None` when the result set is
empty, otherwise copies the rows into a fresh list. -/
def retrieve_all_years (showYears : List Int) : Option (List Int) :=
  let result := distinctAsc showYears
  if result = [] then none
  else some (result.foldl (fun years row => years ++ [row]) [])

/-- The year keys of a summary, in stored order (the `"total"` entry is
not a year). -/
def yearsOf (d : List (AppKey × Nat)) : List Int :=
  d.filterMap (fun e => match e.1 with
    | AppKey.year y => some y
    | AppKey.total => none)

/-- The per-year counts of a summary, in stored order (excluding the
`"total"` entry). -/
def yearCounts (d : List (AppKey × Nat)) : List Nat :=
  d.filterMap (fun e => match e.1 with
    | AppKey.year _ => some e.2
    | AppKey.total => none)

/-- The panelist name `n` belongs to some panelist row that has at least
one countable appearance. -/
def appearsName (db : Db) (n : String) : Prop :=
  ∃ pid, (pid, n) ∈ db.panelists ∧ ∃ a ∈ db.appearances, a.1 = pid

/-! ## Configuration resolution (`load_config`, run.py lines 95-152) -/

/-- JSON leaf values as far as the script distinguishes them: the config
file holds strings, but nothing in the code checks that, so a non-string
leaf must be representable. -/
inductive JPrim
  | str (s : String)
  | num (n : Int)
deriving DecidableEq

/-- One section of `config.json` (e.g. `config_dict["report"]`). -/
abbrev JSection := List (String × JPrim)

/-- The whole parsed `config.json`: named sections. -/
abbrev ConfigDict := List (String × JSection)

/-- The command-line surface: each option is either supplied (a string,
`argparse` `type=str`) or absent. -/
structure CLIArgs where
  ga_property_code : Option String
  css_directory : Option String
  css_filename : Option String
  output_directory : Option String
  output_filename : Option String

/-- The five report keys read and merged by `load_config`. -/
def requiredKeys : List String :=
  ["ga_property_code", "css_directory", "css_filename",
   "output_directory", "output_filename"]

/-- Field selector for `CLIArgs` by destination name. -/
def cliOf (cli : CLIArgs) (k : String) : Option String :=
  if k = "ga_property_code" then cli.ga_property_code
  else if k = "css_directory" then cli.css_directory
  else if k = "css_filename" then cli.css_filename
  else if k = "output_directory" then cli.output_directory
  else if k = "output_filename" then cli.output_filename
  else none

/-- The value `argparse` yields for a destination after parsing: the
explicit command-line string when one was passed, otherwise the pre-seeded
default `config_dict["report"][key]`. -/
def parsedArg (report : JSection) (cli : CLIArgs) (k : String) : Option JPrim :=
  match cliOf cli k with
  | some s => some (JPrim.str s)
  | none => dictGet report k

/-- One merge step of `load_config` (run.py lines 137-150): assign the
parsed value to `config_dict["report"][key]` only when it differs from the
value currently stored there. -/
def mergeKey (report : JSection) (key : String) (a : JPrim) : JSection :=
  if some a ≠ dictGet report key then dictSet report key a else report

/-- `load_config` (run.py lines 95-152).  The five `add_argument` calls
evaluate `config_dict["report"][key]` for their `default=`; a missing
section or key raises an uncaught `KeyError`, modelled as `none`.  After
parsing, each option value is assigned back into the report section only
when it differs from the stored default, and the mutated `config_dict` is
returned. -/
def load_config (config_dict : ConfigDict) (cli : CLIArgs) : Option ConfigDict := do
  let report ← dictGet config_dict "report"
  let d1 ← dictGet report "ga_property_code"
  let d2 ← dictGet report "css_directory"
  let d3 ← dictGet report "css_filename"
  let d4 ← dictGet report "output_directory"
  let d5 ← dictGet report "output_filename"
  let a1 := match cli.ga_property_code with | some s => JPrim.str s | none => d1
  let a2 := match cli.css_directory with | some s => JPrim.str s | none => d2
  let a3 := match cli.css_filename with | some s => JPrim.str s | none => d3
  let a4 := match cli.output_directory with | some s => JPrim.str s | none => d4
  let a5 := match cli.output_filename with | some s => JPrim.str s | none => d5
  let r1 := mergeKey report "ga_property_code" a1
  let r2 := mergeKey r1 "css_directory" a2
  let r3 := mergeKey r2 "css_filename" a3
  let r4 := mergeKey r3 "output_directory" a4
  let r5 := mergeKey r4 "output_filename" a5
  return dictSet config_dict "report" r5

/-- Modelled from the spec's reading of the implicit refinement claim:
`load_config` with every conditional merge replaced by an unconditional
assignment of the parsed value. -/
def load_config_uncond (config_dict : ConfigDict) (cli : CLIArgs) :
    Option ConfigDict := do
  let report ← dictGet config_dict "report"
  let d1 ← dictGet report "ga_property_code"
  let d2 ← dictGet report "css_directory"
  let d3 ← dictGet report "css_filename"
  let d4 ← dictGet report "output_directory"
  let d5 ← dictGet report "output_filename"
  let a1 := match cli.ga_property_code with | some s => JPrim.str s | none => d1
  let a2 := match cli.css_directory with | some s => JPrim.str s | none => d2
  let a3 := match cli.css_filename with | some s => JPrim.str s | none => d3
  let a4 := match cli.output_directory with | some s => JPrim.str s | none => d4
  let a5 := match cli.output_filename with | some s => JPrim.str s | none => d5
  let r1 := dictSet report "ga_property_code" a1
  let r2 := dictSet r1 "css_directory" a2
  let r3 := dictSet r2 "css_filename" a3
  let r4 := dictSet r3 "output_directory" a4
  let r5 := dictSet r4 "output_filename" a5
  return dictSet config_dict "report" r5

/-! ## Output writing (`generate_output_files`, run.py lines 183-207) -/

/-- The resolved `config_dict["report"]` values `generate_output_files`
reads. -/
structure ReportSettings where
  css_directory : String
  css_filename : String
  output_directory : String
  output_filename : String

/-- Abstract file-system state.  `unwritable` holds the paths whose opened
handle reports `writable() = false`; `unreadable` holds the paths
`shutil.copy2` fails to read with a permission error. -/
structure FileSys where
  dirs : List String
  files : List (String × String)
  unwritable : List String
  unreadable : List String

/-- The fatal failure modes of the CSS copy step. -/
inductive CopyError
  | missingSource
  | permissionDenied
deriving DecidableEq

/-- `os.path.join` for the relative paths the script builds. -/
def pathJoin (d f : String) : String := d ++ "/" ++ f

/-- `shutil.copy2(src, destDir)`: raises if the source file is missing or
unreadable, otherwise copies its contents to `destDir/<basename>`. -/
def copy2 (fs : FileSys) (src destDir basename : String) :
    Except CopyError FileSys :=
  match dictGet fs.files src with
  | none => Except.error CopyError.missingSource
  | some contents =>
      if src ∈ fs.unreadable then Except.error CopyError.permissionDenied
      else Except.ok
        { fs with files := dictSet fs.files (pathJoin destDir basename) contents }

/-- `generate_output_files` (run.py lines 183-207): create the output
directory if it does not exist, open the output path and write the report
only when the handle is writable — otherwise print an error message and
continue — then copy the CSS file into the output directory, propagating
its failures.  The returned list is the printed messages. -/
def generate_output_files (rendered_report : String)
    (report_settings : ReportSettings) (fs : FileSys) :
    Except CopyError (FileSys × List String) :=
  let css_path := pathJoin report_settings.css_directory report_settings.css_filename
  let output_path :=
    pathJoin report_settings.output_directory report_settings.output_filename
  let fs1 := if report_settings.output_directory ∈ fs.dirs then fs
             else { fs with dirs := report_settings.output_directory :: fs.dirs }
  let st :=
    if output_path ∈ fs1.unwritable then
      (fs1, ["Error: " ++ output_path ++ " is not writable"])
    else
      ({ fs1 with files := dictSet fs1.files output_path rendered_report },
       ([] : List String))
  match copy2 st.1 css_path report_settings.output_directory
      report_settings.css_filename with
  | Except.error e => Except.error e
  | Except.ok fs3 => Except.ok (fs3, st.2)

/-! ## Concrete instances used by the witnesses -/

def exampleDb : Db :=
  ⟨[(1, "Bob"), (2, "Alice")], [(1, 2020), (2, 2021), (1, 2020)]⟩

/-- The value of `retrieve_all_panelist_appearance_counts exampleDb`. -/
def exampleAllCounts : List (String × Option (List (AppKey × Nat))) :=
  [("Alice", some [(AppKey.year 2021, 1), (AppKey.total, 1)]),
   ("Bob", some [(AppKey.year 2020, 2), (AppKey.total, 2)])]

def exampleReport : JSection :=
  [("ga_property_code", JPrim.str "UA-000"), ("css_directory", JPrim.str "./css"),
   ("css_filename", JPrim.str "style.css"), ("output_directory", JPrim.str "./output"),
   ("output_filename", JPrim.str "report.html")]

def exampleDatabaseSection : JSection :=
  [("host", JPrim.str "localhost"), ("user", JPrim.str "wwdtm"),
   ("password", JPrim.str "secret"), ("database", JPrim.str "wwdtm")]

def exampleConfig : ConfigDict :=
  [("database", exampleDatabaseSection), ("report", exampleReport)]

/-- `exampleReport` with `css_directory` resolved to `"./custom"`. -/
def exampleResolvedReport : JSection :=
  [("ga_property_code", JPrim.str "UA-000"), ("css_directory", JPrim.str "./custom"),
   ("css_filename", JPrim.str "style.css"), ("output_directory", JPrim.str "./output"),
   ("output_filename", JPrim.str "report.html")]

def exampleResolved : ConfigDict :=
  [("database", exampleDatabaseSection), ("report", exampleResolvedReport)]

def exampleCliNone : CLIArgs := ⟨none, none, none, none, none⟩

def exampleCliCss : CLIArgs := ⟨none, some "./custom", none, none, none⟩

/-- A config whose `ga_property_code` is a number, not a string. -/
def exampleBadConfig : ConfigDict :=
  [("report",
    [("ga_property_code", JPrim.num 42), ("css_directory", JPrim.str "./css"),
     ("css_filename", JPrim.str "style.css"),
     ("output_directory", JPrim.str "./output"),
     ("output_filename", JPrim.str "report.html")])]

/-- A config whose report section is missing `css_directory`. -/
def exampleMissingConfig : ConfigDict :=
  [("report", [("ga_property_code", JPrim.str "UA-000")])]

def exampleSettings : ReportSettings :=
  ⟨"./css", "style.css", "./output", "report.html"⟩

def exampleFs : FileSys :=
  ⟨[], [("./css/style.css", "body")], [], []⟩

def exampleFsUnwritable : FileSys :=
  ⟨["./output"], [("./css/style.css", "body")], ["./output/report.html"], []⟩

def exampleFsNoCss : FileSys := ⟨[], [], [], []⟩

def exampleFsCssDenied : FileSys :=
  ⟨[], [("./css/style.css", "body")], [], ["./css/style.css"]⟩

/-! ## Association-list lemmas -/

theorem dictGet_dictSet_self {κ ν : Type} [DecidableEq κ]
    (d : List (κ × ν)) (k : κ) (v : ν) : dictGet (dictSet d k v) k = some v := by
  induction d with
  | nil => simp [dictGet, dictSet]
  | cons hd tl ih =>
      by_cases h : k = hd.1
      · simp [dictSet, dictGet, h]
      · simp [dictSet, dictGet, h, ih]

theorem dictGet_dictSet_ne {κ ν : Type} [DecidableEq κ]
    (d : List (κ × ν)) (k k' : κ) (v : ν) (hne : k' ≠ k) :
    dictGet (dictSet d k v) k' = dictGet d k' := by
  induction d with
  | nil => simp [dictGet, dictSet, hne]
  | cons hd tl ih =>
      by_cases h : k = hd.1
      · subst h
        simp [dictSet, dictGet, hne]
      · by_cases h' : k' = hd.1
        · simp [dictSet, dictGet, h, h']
        · simp [dictSet, dictGet, h, h', ih]

/-- Setting a key that is absent appends the binding at the end. -/
theorem dictSet_of_not_mem {κ ν : Type} [DecidableEq κ]
    (d : List (κ × ν)) (k : κ) (v : ν) (h : k ∉ d.map Prod.fst) :
    dictSet d k v = d ++ [(k, v)] := by
  induction d with
  | nil => simp [dictSet]
  | cons hd tl ih =>
      simp only [List.map_cons, List.mem_cons] at h
      push_neg at h
      simp [dictSet, h.1, ih h.2]

/-- Re-assigning the value already stored at a key leaves the dictionary
unchanged. -/
theorem dictSet_self_eq {κ ν : Type} [DecidableEq κ]
    (d : List (κ × ν)) (k : κ) (v : ν) (h : dictGet d k = some v) :
    dictSet d k v = d := by
  induction d with
  | nil => simp [dictGet] at h
  | cons hd tl ih =>
      obtain ⟨k1, v1⟩ := hd
      by_cases hk : k = k1
      · subst hk
        simp [dictGet] at h
        simp [dictSet, h]
      · simp [dictGet, hk] at h
        simp [dictSet, hk, ih h]

theorem dictGet_append_of_not_mem {κ ν : Type} [DecidableEq κ]
    (l m : List (κ × ν)) (k : κ) (h : k ∉ l.map Prod.fst) :
    dictGet (l ++ m) k = dictGet m k := by
  induction l with
  | nil => simp
  | cons hd tl ih =>
      simp only [List.map_cons, List.mem_cons] at h
      push_neg at h
      simp [dictGet, h.1, ih h.2]

/-! ## Distinct ascending years -/

theorem mem_insertYear {y w : Int} {l : List Int} :
    w ∈ insertYear y l ↔ w = y ∨ w ∈ l := by
  induction l with
  | nil => simp [insertYear]
  | cons z zs ih =>
      by_cases h1 : y < z
      · simp [insertYear, h1]
      · by_cases h2 : y = z
        · subst h2
          simp [insertYear, h1, List.mem_cons]
        · simp [insertYear, h1, h2, List.mem_cons, ih]
          tauto

theorem mem_distinctAsc {y : Int} {ys : List Int} :
    y ∈ distinctAsc ys ↔ y ∈ ys := by
  induction ys with
  | nil => simp [distinctAsc]
  | cons z zs ih =>
      simp only [distinctAsc, List.foldr_cons, mem_insertYear, List.mem_cons]
      rw [show List.foldr insertYear [] zs = distinctAsc zs from rfl] at *
      tauto

theorem insertYear_ne_nil (y : Int) (l : List Int) : insertYear y l ≠ [] := by
  cases l with
  | nil => simp [insertYear]
  | cons z zs =>
      simp only [insertYear]
      split <;> try simp
      split <;> simp

theorem distinctAsc_eq_nil_iff {ys : List Int} :
    distinctAsc ys = [] ↔ ys = [] := by
  cases ys with
  | nil => simp [distinctAsc]
  | cons z zs =>
      simp only [distinctAsc, List.foldr_cons]
      constructor
      · intro h
        exact absurd h (insertYear_ne_nil z _)
      · intro h
        exact absurd h (by simp)

theorem pairwise_insertYear {y : Int} {l : List Int}
    (h : l.Pairwise (· < ·)) : (insertYear y l).Pairwise (· < ·) := by
  induction l with
  | nil => simp [insertYear]
  | cons z zs ih =>
      rcases List.pairwise_cons.mp h with ⟨hz, hzs⟩
      by_cases h1 : y < z
      · simp only [insertYear, if_pos h1]
        refine List.pairwise_cons.mpr ⟨?_, h⟩
        intro w hw
        rcases List.mem_cons.mp hw with h' | h'
        · exact h' ▸ h1
        · exact lt_trans h1 (hz w h')
      · by_cases h2 : y = z
        · simpa [insertYear, h1, h2] using h
        · simp only [insertYear, if_neg h1, if_neg h2]
          refine List.pairwise_cons.mpr ⟨?_, ih hzs⟩
          intro w hw
          rcases mem_insertYear.mp hw with h' | h'
          · subst h'
            omega
          · exact hz w h'

theorem pairwise_distinctAsc (ys : List Int) :
    (distinctAsc ys).Pairwise (· < ·) := by
  induction ys with
  | nil => simp [distinctAsc]
  | cons z zs ih => exact pairwise_insertYear ih

theorem nodup_distinctAsc (ys : List Int) : (distinctAsc ys).Nodup :=
  (pairwise_distinctAsc ys).imp ne_of_lt

/-! ## Characterizing the per-panelist aggregation -/

theorem foldl_step_eq (rows : List (Int × Nat)) (acc : List (AppKey × Nat)) (t : Nat) :
    rows.foldl
        (fun (st : List (AppKey × Nat) × Nat) row =>
          (dictSet st.1 (AppKey.year row.1) row.2, st.2 + row.2)) (acc, t)
      = (rows.foldl (fun a row => dictSet a (AppKey.year row.1) row.2) acc,
         t + (rows.map Prod.snd).sum) := by
  induction rows generalizing acc t with
  | nil => simp
  | cons r rs ih =>
      rw [List.foldl_cons, List.foldl_cons, ih]
      simp [Prod.ext_iff]
      omega

theorem foldl_dictSet_fresh (rows : List (Int × Nat)) (acc : List (AppKey × Nat))
    (hfresh : ∀ r ∈ rows, AppKey.year r.1 ∉ acc.map Prod.fst)
    (hnd : (rows.map Prod.fst).Nodup) :
    rows.foldl (fun a row => dictSet a (AppKey.year row.1) row.2) acc
      = acc ++ rows.map (fun r => (AppKey.year r.1, r.2)) := by
  induction rows generalizing acc with
  | nil => simp
  | cons r rs ih =>
      simp only [List.map_cons, List.nodup_cons] at hnd
      rw [List.foldl_cons, dictSet_of_not_mem _ _ _ (hfresh r (by simp)), ih]
      · simp
      · intro r' hr'
        simp only [List.map_append, List.mem_append, List.map_cons, List.map_nil,
          List.mem_singleton]
        push_neg
        refine ⟨hfresh r' (by simp [hr']), ?_⟩
        intro hcontra
        have : r'.1 = r.1 := by
          simpa using congrArg (fun k => match k with
            | AppKey.year y => y
            | AppKey.total => 0) hcontra
        exact hnd.1 (this ▸ List.mem_map_of_mem Prod.fst hr')
      · exact hnd.2

theorem panelistQueryRows_eq_nil_iff {ys : List Int} :
    panelistQueryRows ys = [] ↔ ys = [] := by
  simp [panelistQueryRows, distinctAsc_eq_nil_iff]

/-- Closed form of `retrieve_panelist_appearance_counts` on non-empty
input: the query rows in order, each under its year key, followed by the
`"total"` entry holding the sum of the counts. -/
theorem retrieve_panelist_eq (ys : List Int) (h : ys ≠ []) :
    retrieve_panelist_appearance_counts ys
      = some ((panelistQueryRows ys).map (fun r => (AppKey.year r.1, r.2))
              ++ [(AppKey.total, ((panelistQueryRows ys).map Prod.snd).sum)]) := by
  have hrows : panelistQueryRows ys ≠ [] := fun hc =>
    h (panelistQueryRows_eq_nil_iff.mp hc)
  have hnd : ((panelistQueryRows ys).map Prod.fst).Nodup := by
    have heq : (panelistQueryRows ys).map Prod.fst = distinctAsc ys := by
      simp [panelistQueryRows, Function.comp_def]
    rw [heq]
    exact nodup_distinctAsc ys
  have hfold := foldl_dictSet_fresh (panelistQueryRows ys) [] (by simp) hnd
  unfold retrieve_panelist_appearance_counts
  rw [if_neg hrows]
  simp only [foldl_step_eq, hfold, List.nil_append, Nat.zero_add]
  rw [dictSet_of_not_mem]
  · simp

theorem retrieve_panelist_none_iff {ys : List Int} :
    retrieve_panelist_appearance_counts ys = none ↔ ys = [] := by
  constructor
  · intro h
    by_contra hne
    rw [retrieve_panelist_eq ys hne] at h
    exact Option.noConfusion h
  · intro h
    subst h
    rfl

theorem yearsOf_closed (rows : List (Int × Nat)) (s : Nat) :
    yearsOf ((rows.map fun r => (AppKey.year r.1, r.2)) ++ [(AppKey.total, s)])
      = rows.map Prod.fst := by
  induction rows with
  | nil => rfl
  | cons r rs ih => simpa [yearsOf, List.filterMap_cons] using ih

theorem yearCounts_closed (rows : List (Int × Nat)) (s : Nat) :
    yearCounts ((rows.map fun r => (AppKey.year r.1, r.2)) ++ [(AppKey.total, s)])
      = rows.map Prod.snd := by
  induction rows with
  | nil => rfl
  | cons r rs ih => simpa [yearCounts, List.filterMap_cons] using ih

theorem dictGet_total_closed (rows : List (Int × Nat)) (s : Nat) :
    dictGet ((rows.map fun r => (AppKey.year r.1, r.2)) ++ [(AppKey.total, s)])
      AppKey.total = some s := by
  rw [dictGet_append_of_not_mem]
  · rfl
  · simp

/-- On non-empty input the summary's `"total"` entry holds exactly the sum
of the summary's per-year counts, and its year keys are the distinct input
years in ascending order. -/
theorem retrieve_panelist_summary (ys : List Int) (d : List (AppKey × Nat))
    (h : retrieve_panelist_appearance_counts ys = some d) :
    dictGet d AppKey.total = some (yearCounts d).sum ∧
    yearsOf d = distinctAsc ys := by
  have hne : ys ≠ [] := by
    intro hc
    rw [retrieve_panelist_none_iff.mpr hc] at h
    exact Option.noConfusion h
  rw [retrieve_panelist_eq ys hne] at h
  have hd := Option.some.inj h
  subst hd
  refine ⟨?_, ?_⟩
  · rw [yearCounts_closed, dictGet_total_closed]
  · rw [yearsOf_closed]
    simp [panelistQueryRows, Function.comp_def]

theorem retrieve_panelist_sorted (ys : List Int) (d : List (AppKey × Nat))
    (h : retrieve_panelist_appearance_counts ys = some d) :
    (yearsOf d).Pairwise (· < ·) ∧ (yearsOf d).Nodup := by
  have hys := (retrieve_panelist_summary ys d h).2
  rw [hys]
  exact ⟨pairwise_distinctAsc ys, nodup_distinctAsc ys⟩

/-! ## The distinct-panelists query -/

theorem insertByName_perm (p : Int × String) (l : List (Int × String)) :
    (insertByName p l).Perm (p :: l) := by
  induction l with
  | nil => simp [insertByName]
  | cons q qs ih =>
      by_cases h : strLe p.2 q.2 = true
      · simp [insertByName, h]
      · simp only [insertByName, if_neg h]
        exact (ih.cons q).trans (List.Perm.swap p q qs)

theorem sortByName_perm (l : List (Int × String)) : (sortByName l).Perm l := by
  induction l with
  | nil => rfl
  | cons x xs ih =>
      exact (insertByName_perm x (sortByName xs)).trans (ih.cons x)

theorem mem_sortByName {p : Int × String} {l : List (Int × String)} :
    p ∈ sortByName l ↔ p ∈ l :=
  (sortByName_perm l).mem_iff

theorem nodup_sortByName {l : List (Int × String)} (h : l.Nodup) :
    (sortByName l).Nodup :=
  ((sortByName_perm l).nodup_iff).mpr h

theorem mem_joinAux (ps : List (Int × String)) (as : List (Int × Int))
    (p : Int × String) :
    p ∈ as.foldr (fun a acc => ps.filter (fun q => q.1 = a.1) ++ acc) []
      ↔ p ∈ ps ∧ ∃ a ∈ as, a.1 = p.1 := by
  induction as with
  | nil => simp
  | cons a rest ih =>
      simp only [List.foldr_cons, List.mem_append, List.mem_filter, ih,
        List.mem_cons, decide_eq_true_eq]
      constructor
      · rintro (⟨hp, he⟩ | ⟨hp, a', ha', he⟩)
        · exact ⟨hp, a, Or.inl rfl, he.symm⟩
        · exact ⟨hp, a', Or.inr ha', he⟩
      · rintro ⟨hp, a', ha' | ha', he⟩
        · subst ha'
          exact Or.inl ⟨hp, he.symm⟩
        · exact Or.inr ⟨hp, a', ha', he⟩

theorem mem_joinRows {db : Db} {p : Int × String} :
    p ∈ joinRows db ↔ p ∈ db.panelists ∧ ∃ a ∈ db.appearances, a.1 = p.1 :=
  mem_joinAux db.panelists db.appearances p

theorem mem_allPanelistsQuery {db : Db} {p : Int × String} :
    p ∈ allPanelistsQuery db
      ↔ p ∈ db.panelists ∧ ∃ a ∈ db.appearances, a.1 = p.1 := by
  rw [allPanelistsQuery, mem_sortByName, List.mem_dedup, mem_joinRows]

theorem nodup_allPanelistsQuery (db : Db) : (allPanelistsQuery db).Nodup :=
  nodup_sortByName (List.nodup_dedup _)

theorem retrieve_all_eq (db : Db) (h : allPanelistsQuery db ≠ []) :
    retrieve_all_panelist_appearance_counts db
      = some ((allPanelistsQuery db).map (fun pr =>
          (pr.2, retrieve_panelist_appearance_counts (showYearsOf db pr.1)))) := by
  unfold retrieve_all_panelist_appearance_counts
  rw [if_neg h]

theorem retrieve_all_none_iff {db : Db} :
    retrieve_all_panelist_appearance_counts db = none
      ↔ allPanelistsQuery db = [] := by
  unfold retrieve_all_panelist_appearance_counts
  by_cases h : allPanelistsQuery db = [] <;> simp [h]

theorem showYearsOf_ne_nil {db : Db} {pid : Int}
    (h : ∃ a ∈ db.appearances, a.1 = pid) : showYearsOf db pid ≠ [] := by
  obtain ⟨a, ha, heq⟩ := h
  unfold showYearsOf
  simp only [ne_eq, List.map_eq_nil_iff, List.filter_eq_nil_iff, not_forall]
  exact ⟨a, ha, by simp [heq]⟩

theorem foldl_append_copy (l acc : List Int) :
    l.foldl (fun years row => years ++ [row]) acc = acc ++ l := by
  induction l generalizing acc with
  | nil => simp
  | cons x xs ih => simp [List.foldl_cons, ih]

theorem retrieve_all_years_eq (ys : List Int) (h : ys ≠ []) :
    retrieve_all_years ys = some (distinctAsc ys) := by
  unfold retrieve_all_years
  rw [if_neg (fun hc => h (distinctAsc_eq_nil_iff.mp hc)), foldl_append_copy]
  simp

/-! ## Configuration-resolution lemmas -/

theorem dictGet_mergeKey_self (r : JSection) (k : String) (a : JPrim) :
    dictGet (mergeKey r k a) k = some a := by
  unfold mergeKey
  split
  · exact dictGet_dictSet_self r k a
  · next hcond =>
      push_neg at hcond
      exact hcond.symm

theorem dictGet_mergeKey_ne (r : JSection) (k k' : String) (a : JPrim)
    (h : k' ≠ k) : dictGet (mergeKey r k a) k' = dictGet r k' := by
  unfold mergeKey
  split
  · exact dictGet_dictSet_ne r k k' a h
  · rfl

theorem mergeKey_eq_dictSet (r : JSection) (k : String) (a : JPrim) :
    mergeKey r k a = dictSet r k a := by
  unfold mergeKey
  split
  · rfl
  · next hcond =>
      push_neg at hcond
      exact (dictSet_self_eq r k a hcond.symm).symm

/-- Central description of a successful `load_config`: the returned config
is the input with the report section's five required keys holding exactly
the values `argparse` parsed, everything else untouched. -/
theorem load_config_core (config_dict : ConfigDict) (cli : CLIArgs)
    (report : JSection) (cfg' : ConfigDict)
    (hrep : dictGet config_dict "report" = some report)
    (h : load_config config_dict cli = some cfg') :
    ∃ report', dictGet cfg' "report" = some report' ∧
      (∀ k ∈ requiredKeys, dictGet report' k = parsedArg report cli k) ∧
      (∀ k, k ∉ requiredKeys → dictGet report' k = dictGet report k) ∧
      (∀ key, key ≠ "report" → dictGet cfg' key = dictGet config_dict key) := by
  unfold load_config at h
  rw [hrep] at h
  simp only [Option.bind_eq_bind, Option.some_bind] at h
  cases h1 : dictGet report "ga_property_code" with
  | none => rw [h1] at h; simp at h
  | some d1 =>
  rw [h1] at h
  simp only [Option.some_bind] at h
  cases h2 : dictGet report "css_directory" with
  | none => rw [h2] at h; simp at h
  | some d2 =>
  rw [h2] at h
  simp only [Option.some_bind] at h
  cases h3 : dictGet report "css_filename" with
  | none => rw [h3] at h; simp at h
  | some d3 =>
  rw [h3] at h
  simp only [Option.some_bind] at h
  cases h4 : dictGet report "output_directory" with
  | none => rw [h4] at h; simp at h
  | some d4 =>
  rw [h4] at h
  simp only [Option.some_bind] at h
  cases h5 : dictGet report "output_filename" with
  | none => rw [h5] at h; simp at h
  | some d5 =>
  rw [h5] at h
  simp only [Option.some_bind, Option.pure_def, Option.some.injEq] at h
  subst h
  refine ⟨_, dictGet_dictSet_self _ _ _, ?_, ?_, ?_⟩
  · intro k hk
    simp only [requiredKeys, List.mem_cons, List.not_mem_nil, or_false] at hk
    rcases hk with rfl | rfl | rfl | rfl | rfl
    · rw [dictGet_mergeKey_ne _ _ _ _ (by decide), dictGet_mergeKey_ne _ _ _ _ (by decide),
        dictGet_mergeKey_ne _ _ _ _ (by decide), dictGet_mergeKey_ne _ _ _ _ (by decide),
        dictGet_mergeKey_self]
      cases hcli : cli.ga_property_code <;>
        simp [parsedArg, cliOf, hcli, h1]
    · rw [dictGet_mergeKey_ne _ _ _ _ (by decide), dictGet_mergeKey_ne _ _ _ _ (by decide),
        dictGet_mergeKey_ne _ _ _ _ (by decide), dictGet_mergeKey_self]
      cases hcli : cli.css_directory <;>
        simp [parsedArg, cliOf, hcli, h2]
    · rw [dictGet_mergeKey_ne _ _ _ _ (by decide), dictGet_mergeKey_ne _ _ _ _ (by decide),
        dictGet_mergeKey_self]
      cases hcli : cli.css_filename <;>
        simp [parsedArg, cliOf, hcli, h3]
    · rw [dictGet_mergeKey_ne _ _ _ _ (by decide), dictGet_mergeKey_self]
      cases hcli : cli.output_directory <;>
        simp [parsedArg, cliOf, hcli, h4]
    · rw [dictGet_mergeKey_self]
      cases hcli : cli.output_filename <;>
        simp [parsedArg, cliOf, hcli, h5]
  · intro k hk
    simp only [requiredKeys, List.mem_cons, List.not_mem_nil, or_false] at hk
    push_neg at hk
    obtain ⟨n1, n2, n3, n4, n5⟩ := hk
    rw [dictGet_mergeKey_ne _ _ _ _ n5, dictGet_mergeKey_ne _ _ _ _ n4,
      dictGet_mergeKey_ne _ _ _ _ n3, dictGet_mergeKey_ne _ _ _ _ n2,
      dictGet_mergeKey_ne _ _ _ _ n1]
  · intro key hkey
    exact dictGet_dictSet_ne _ _ _ _ hkey

/-- `load_config` fails (the script dies with a `KeyError`) exactly when
the report section or one of its five required keys is absent. -/
theorem load_config_none_iff (config_dict : ConfigDict) (cli : CLIArgs) :
    load_config config_dict cli = none
      ↔ dictGet config_dict "report" = none ∨
        ∃ report, dictGet config_dict "report" = some report ∧
          ∃ k ∈ requiredKeys, dictGet report k = none := by
  unfold load_config
  cases hrep : dictGet config_dict "report" with
  | none => simp
  | some report =>
  simp only [Option.bind_eq_bind, Option.some_bind]
  cases h1 : dictGet report "ga_property_code" with
  | none =>
      simp only [Option.none_bind]
      constructor
      · intro _
        exact Or.inr ⟨report, rfl, "ga_property_code", by simp [requiredKeys], h1⟩
      · intro _
        trivial
  | some d1 =>
  simp only [Option.some_bind]
  cases h2 : dictGet report "css_directory" with
  | none =>
      simp only [Option.none_bind]
      constructor
      · intro _
        exact Or.inr ⟨report, rfl, "css_directory", by simp [requiredKeys], h2⟩
      · intro _
        trivial
  | some d2 =>
  simp only [Option.some_bind]
  cases h3 : dictGet report "css_filename" with
  | none =>
      simp only [Option.none_bind]
      constructor
      · intro _
        exact Or.inr ⟨report, rfl, "css_filename", by simp [requiredKeys], h3⟩
      · intro _
        trivial
  | some d3 =>
  simp only [Option.some_bind]
  cases h4 : dictGet report "output_directory" with
  | none =>
      simp only [Option.none_bind]
      constructor
      · intro _
        exact Or.inr ⟨report, rfl, "output_directory", by simp [requiredKeys], h4⟩
      · intro _
        trivial
  | some d4 =>
  simp only [Option.some_bind]
  cases h5 : dictGet report "output_filename" with
  | none =>
      simp only [Option.none_bind]
      constructor
      · intro _
        exact Or.inr ⟨report, rfl, "output_filename", by simp [requiredKeys], h5⟩
      · intro _
        trivial
  | some d5 =>
  simp only [Option.some_bind, Option.pure_def]
  constructor
  · intro hcontra
    exact Option.noConfusion hcontra
  · rintro (hcontra | ⟨r, hr, k, hk, hget⟩)
    · exact Option.noConfusion hcontra
    · obtain rfl := Option.some.inj hr
      simp only [requiredKeys, List.mem_cons, List.not_mem_nil, or_false] at hk
      rcases hk with rfl | rfl | rfl | rfl | rfl
      · rw [h1] at hget
        exact Option.noConfusion hget
      · rw [h2] at hget
        exact Option.noConfusion hget
      · rw [h3] at hget
        exact Option.noConfusion hget
      · rw [h4] at hget
        exact Option.noConfusion hget
      · rw [h5] at hget
        exact Option.noConfusion hget

/-! ## Output-writer lemmas -/

theorem copy2_ok (fs : FileSys) (src destDir basename c : String)
    (hc : dictGet fs.files src = some c) (hr : src ∉ fs.unreadable) :
    copy2 fs src destDir basename
      = Except.ok { fs with files := dictSet fs.files (pathJoin destDir basename) c } := by
  unfold copy2
  rw [hc]
  simp [hr]

theorem copy2_missing (fs : FileSys) (src destDir basename : String)
    (hmiss : dictGet fs.files src = none) :
    copy2 fs src destDir basename = Except.error CopyError.missingSource := by
  unfold copy2
  rw [hmiss]

theorem copy2_denied (fs : FileSys) (src destDir basename c : String)
    (hc : dictGet fs.files src = some c) (hr : src ∈ fs.unreadable) :
    copy2 fs src destDir basename = Except.error CopyError.permissionDenied := by
  unfold copy2
  rw [hc]
  simp [hr]

/-- Success path of `generate_output_files`: writable destination,
readable CSS source distinct from the output path. -/
theorem generate_output_files_ok
    (doc : String) (rs : ReportSettings) (fs : FileSys) (c : String)
    (hw : pathJoin rs.output_directory rs.output_filename ∉ fs.unwritable)
    (hc : dictGet fs.files (pathJoin rs.css_directory rs.css_filename) = some c)
    (hr : pathJoin rs.css_directory rs.css_filename ∉ fs.unreadable)
    (hdist : pathJoin rs.css_directory rs.css_filename
      ≠ pathJoin rs.output_directory rs.output_filename) :
    generate_output_files doc rs fs =
      Except.ok
        ({ dirs := if rs.output_directory ∈ fs.dirs then fs.dirs
                   else rs.output_directory :: fs.dirs,
           files := dictSet
             (dictSet fs.files (pathJoin rs.output_directory rs.output_filename) doc)
             (pathJoin rs.output_directory rs.css_filename) c,
           unwritable := fs.unwritable, unreadable := fs.unreadable }, []) := by
  unfold generate_output_files
  by_cases hdir : rs.output_directory ∈ fs.dirs
  · simp only [if_pos hdir, if_neg hw]
    rw [copy2_ok _ _ _ _ c
      (by simpa [dictGet_dictSet_ne _ _ _ _ hdist] using hc) (by simpa using hr)]
  · simp only [if_neg hdir]
    rw [if_neg (show pathJoin rs.output_directory rs.output_filename ∉ fs.unwritable from hw)]
    rw [copy2_ok _ _ _ _ c
      (by simpa [dictGet_dictSet_ne _ _ _ _ hdist] using hc) (by simpa using hr)]

/-- Skip path of `generate_output_files`: the opened handle is not
writable, so the report write is skipped and the error message printed,
then the CSS copy still runs. -/
theorem generate_output_files_skip
    (doc : String) (rs : ReportSettings) (fs : FileSys) (c : String)
    (hw : pathJoin rs.output_directory rs.output_filename ∈ fs.unwritable)
    (hc : dictGet fs.files (pathJoin rs.css_directory rs.css_filename) = some c)
    (hr : pathJoin rs.css_directory rs.css_filename ∉ fs.unreadable) :
    generate_output_files doc rs fs =
      Except.ok
        ({ dirs := if rs.output_directory ∈ fs.dirs then fs.dirs
                   else rs.output_directory :: fs.dirs,
           files := dictSet fs.files (pathJoin rs.output_directory rs.css_filename) c,
           unwritable := fs.unwritable, unreadable := fs.unreadable },
         ["Error: " ++ pathJoin rs.output_directory rs.output_filename
           ++ " is not writable"]) := by
  unfold generate_output_files
  by_cases hdir : rs.output_directory ∈ fs.dirs
  · simp only [if_pos hdir, if_pos hw]
    rw [copy2_ok _ _ _ _ c hc hr]
  · simp only [if_neg hdir]
    rw [if_pos (show pathJoin rs.output_directory rs.output_filename ∈ fs.unwritable from hw)]
    rw [copy2_ok _ _ _ _ c (by simpa using hc) (by simpa using hr)]

/-- Missing CSS source propagates as a fatal error. -/
theorem generate_output_files_missing
    (doc : String) (rs : ReportSettings) (fs : FileSys)
    (hmiss : dictGet fs.files (pathJoin rs.css_directory rs.css_filename) = none)
    (hne : pathJoin rs.css_directory rs.css_filename
      ≠ pathJoin rs.output_directory rs.output_filename) :
    generate_output_files doc rs fs = Except.error CopyError.missingSource := by
  unfold generate_output_files
  by_cases hdir : rs.output_directory ∈ fs.dirs <;>
    by_cases hw : pathJoin rs.output_directory rs.output_filename ∈ fs.unwritable <;>
      simp only [if_pos, if_neg, hdir, hw, if_true, if_false] <;>
        rw [copy2_missing] <;>
          simp [dictGet_dictSet_ne _ _ _ _ hne, hmiss]

/-- An unreadable CSS source propagates as a fatal error. -/
theorem generate_output_files_denied
    (doc : String) (rs : ReportSettings) (fs : FileSys) (c : String)
    (hc : dictGet fs.files (pathJoin rs.css_directory rs.css_filename) = some c)
    (hr : pathJoin rs.css_directory rs.css_filename ∈ fs.unreadable)
    (hne : pathJoin rs.css_directory rs.css_filename
      ≠ pathJoin rs.output_directory rs.output_filename) :
    generate_output_files doc rs fs = Except.error CopyError.permissionDenied := by
  unfold generate_output_files
  by_cases hdir : rs.output_directory ∈ fs.dirs <;>
    by_cases hw : pathJoin rs.output_directory rs.output_filename ∈ fs.unwritable <;>
      simp only [if_pos, if_neg, hdir, hw, if_true, if_false] <;>
        rw [copy2_denied _ _ _ _ c] <;>
          simp [dictGet_dictSet_ne _ _ _ _ hne, hc, hr]

theorem names_nodup_allPanelistsQuery (db : Db)
    (h : (db.panelists.map Prod.snd).Nodup) :
    ((allPanelistsQuery db).map Prod.snd).Nodup := by
  apply List.Nodup.map_on ?_ (nodup_allPanelistsQuery db)
  intro x hx y hy hxy
  exact List.inj_on_of_nodup_map h (mem_allPanelistsQuery.mp hx).1
    (mem_allPanelistsQuery.mp hy).1 hxy

/-! ## The claims -/

/-- C1, counterexample: on empty input both retrieval functions return
`None` (run.py lines 35-36 and 62-63), not an empty mapping as the claim
states. -/
theorem claim1_counterexample :
    retrieve_panelist_appearance_counts [] = none ∧
    retrieve_all_panelist_appearance_counts ⟨[], []⟩ = none ∧
    retrieve_panelist_appearance_counts [] ≠ some [] := by
  refine ⟨rfl, rfl, ?_⟩
  intro h
  exact Option.noConfusion ((rfl : retrieve_panelist_appearance_counts [] = none).symm.trans h)

/-- C1, amended: when the input row set is empty the aggregation returns
`None` — a defined value, not an exception — and returns `None` only
then. -/
theorem claim1_empty_returns_none :
    (∀ ys : List Int, retrieve_panelist_appearance_counts ys = none ↔ ys = []) ∧
    (∀ db : Db, retrieve_all_panelist_appearance_counts db = none
      ↔ allPanelistsQuery db = []) :=
  ⟨fun _ => retrieve_panelist_none_iff, fun _ => retrieve_all_none_iff⟩

theorem claim1_empty_returns_none_witness :
    retrieve_panelist_appearance_counts [] = none :=
  (claim1_empty_returns_none.1 []).mpr rfl

/-- C2: on any non-empty input the per-panelist aggregation yields a
summary whose `"total"` entry is the exact sum of its per-year counts;
and (given distinct panelist names, the database integrity assumption)
the all-panelists aggregation yields exactly one summary per distinct
appearing panelist name, each satisfying the same sum invariant. -/
theorem claim2_sum_invariant :
    (∀ ys : List Int, ys ≠ [] →
      ∃ d, retrieve_panelist_appearance_counts ys = some d ∧
        dictGet d AppKey.total = some (yearCounts d).sum) ∧
    (∀ db : Db, (db.panelists.map Prod.snd).Nodup →
      ∀ l, retrieve_all_panelist_appearance_counts db = some l →
        (l.map Prod.fst).Nodup ∧
        (∀ n, n ∈ l.map Prod.fst ↔ appearsName db n) ∧
        (∀ e ∈ l, ∃ d, e.2 = some d ∧
          dictGet d AppKey.total = some (yearCounts d).sum)) := by
  constructor
  · intro ys hys
    exact ⟨_, retrieve_panelist_eq ys hys,
      (retrieve_panelist_summary ys _ (retrieve_panelist_eq ys hys)).1⟩
  · intro db hnames l hl
    have hq : allPanelistsQuery db ≠ [] := by
      intro hc
      rw [retrieve_all_none_iff.mpr hc] at hl
      exact Option.noConfusion hl
    rw [retrieve_all_eq db hq] at hl
    obtain rfl := Option.some.inj hl
    refine ⟨?_, ?_, ?_⟩
    · have hmap : ((allPanelistsQuery db).map (fun pr =>
          (pr.2, retrieve_panelist_appearance_counts (showYearsOf db pr.1)))).map Prod.fst
          = (allPanelistsQuery db).map Prod.snd := by
        simp [List.map_map, Function.comp_def]
      rw [hmap]
      exact names_nodup_allPanelistsQuery db hnames
    · intro n
      simp only [List.map_map, List.mem_map, Function.comp_def]
      constructor
      · rintro ⟨pr, hpr, rfl⟩
        obtain ⟨hmem, happ⟩ := mem_allPanelistsQuery.mp hpr
        exact ⟨pr.1, hmem, happ⟩
      · rintro ⟨pid, hmem, happ⟩
        exact ⟨(pid, n), mem_allPanelistsQuery.mpr ⟨hmem, happ⟩, rfl⟩
    · intro e he
      obtain ⟨pr, hpr, rfl⟩ := List.mem_map.mp he
      obtain ⟨hmem, happ⟩ := mem_allPanelistsQuery.mp hpr
      have hne := showYearsOf_ne_nil happ
      exact ⟨_, retrieve_panelist_eq _ hne,
        (retrieve_panelist_summary _ _ (retrieve_panelist_eq _ hne)).1⟩

theorem claim2_sum_invariant_witness :
    (∃ d, retrieve_panelist_appearance_counts [2020, 2020, 2021] = some d ∧
      dictGet d AppKey.total = some (yearCounts d).sum) ∧
    ((exampleAllCounts.map Prod.fst).Nodup ∧
      (∀ n, n ∈ exampleAllCounts.map Prod.fst ↔ appearsName exampleDb n) ∧
      (∀ e ∈ exampleAllCounts, ∃ d, e.2 = some d ∧
        dictGet d AppKey.total = some (yearCounts d).sum)) :=
  ⟨claim2_sum_invariant.1 [2020, 2020, 2021] (by decide),
   claim2_sum_invariant.2 exampleDb (by decide) exampleAllCounts (by decide)⟩

/-- C3: in every summary the aggregation produces, the year keys are
strictly ascending with no duplicates — both for the per-panelist
function and for every summary inside the all-panelists result. -/
theorem claim3_years_sorted :
    (∀ (ys : List Int) (d : List (AppKey × Nat)),
      retrieve_panelist_appearance_counts ys = some d →
      (yearsOf d).Pairwise (· < ·) ∧ (yearsOf d).Nodup) ∧
    (∀ (db : Db) l, retrieve_all_panelist_appearance_counts db = some l →
      ∀ e ∈ l, ∀ d, e.2 = some d →
        (yearsOf d).Pairwise (· < ·) ∧ (yearsOf d).Nodup) := by
  refine ⟨retrieve_panelist_sorted, ?_⟩
  intro db l hl e he d hd
  have hq : allPanelistsQuery db ≠ [] := by
    intro hc
    rw [retrieve_all_none_iff.mpr hc] at hl
    exact Option.noConfusion hl
  rw [retrieve_all_eq db hq] at hl
  obtain rfl := Option.some.inj hl
  obtain ⟨pr, hpr, rfl⟩ := List.mem_map.mp he
  exact retrieve_panelist_sorted _ d hd

theorem claim3_years_sorted_witness :
    (yearsOf [(AppKey.year 2020, 2), (AppKey.year 2021, 1),
      (AppKey.total, 3)]).Pairwise (· < ·) ∧
    (yearsOf [(AppKey.year 2020, 2), (AppKey.year 2021, 1),
      (AppKey.total, 3)]).Nodup :=
  claim3_years_sorted.1 [2020, 2021, 2020] _ (by decide)

/-- C5, counterexample: with no shows, `retrieve_all_years` returns `None`
(run.py lines 86-87), not the empty sequence the claim states. -/
theorem claim5_counterexample :
    retrieve_all_years [] = none ∧ retrieve_all_years [] ≠ some [] := by
  refine ⟨rfl, ?_⟩
  intro h
  exact Option.noConfusion ((rfl : retrieve_all_years [] = none).symm.trans h)

/-- C5, amended: on non-empty input the distinct show years come back
ascending and duplicate-free (and exactly the input's years); on empty
input the function returns `None`, not an empty sequence. -/
theorem claim5_distinct_years :
    (∀ ys : List Int, ys ≠ [] → ∃ l, retrieve_all_years ys = some l ∧
      l.Pairwise (· < ·) ∧ l.Nodup ∧ (∀ y, y ∈ l ↔ y ∈ ys)) ∧
    retrieve_all_years [] = none ∧
    retrieve_all_years [2018, 2016, 2018, 2017] = some [2016, 2017, 2018] := by
  refine ⟨?_, rfl, by decide⟩
  intro ys hys
  exact ⟨distinctAsc ys, retrieve_all_years_eq ys hys, pairwise_distinctAsc ys,
    nodup_distinctAsc ys, fun y => mem_distinctAsc⟩

theorem claim5_distinct_years_witness :
    ∃ l, retrieve_all_years [2018, 2016, 2018, 2017] = some l ∧
      l.Pairwise (· < ·) ∧ l.Nodup ∧ (∀ y, y ∈ l ↔ y ∈ [2018, 2016, 2018, 2017]) :=
  claim5_distinct_years.1 [2018, 2016, 2018, 2017] (by decide)

/-- C4: for each report key, the resolution keeps the file default when
the parsed command-line value equals it and takes the parsed value when
it differs. -/
theorem claim4_override_policy :
    ∀ (config_dict : ConfigDict) (cli : CLIArgs) (report : JSection)
      (cfg' : ConfigDict) (report' : JSection),
      dictGet config_dict "report" = some report →
      load_config config_dict cli = some cfg' →
      dictGet cfg' "report" = some report' →
      ∀ k ∈ requiredKeys,
        (parsedArg report cli k = dictGet report k →
          dictGet report' k = dictGet report k) ∧
        (parsedArg report cli k ≠ dictGet report k →
          dictGet report' k = parsedArg report cli k) := by
  intro config_dict cli report cfg' report' hrep h hrep'
  obtain ⟨r', hr', hkeys, _, _⟩ := load_config_core config_dict cli report cfg' hrep h
  obtain rfl : report' = r' := Option.some.inj (hrep'.symm.trans hr')
  intro k hk
  have hres := hkeys k hk
  exact ⟨fun heq => hres.trans heq, fun _ => hres⟩

theorem claim4_override_policy_witness :
    parsedArg exampleReport exampleCliCss "css_directory"
      ≠ dictGet exampleReport "css_directory" ∧
    dictGet exampleResolvedReport "css_directory"
      = parsedArg exampleReport exampleCliCss "css_directory" ∧
    dictGet exampleResolvedReport "css_directory" = some (JPrim.str "./custom") :=
  ⟨by decide,
   (claim4_override_policy exampleConfig exampleCliCss exampleReport
      exampleResolved exampleResolvedReport rfl rfl rfl
      "css_directory" (by decide)).2 (by decide),
   by decide⟩

/-- C6, counterexample: a report value that is not a string —
`ga_property_code` holding the number 42 — is accepted by `load_config`
without any error, refuting the claim that a non-string value fails with
a `ConfigurationError`. -/
theorem claim6_counterexample :
    (∃ report, dictGet exampleBadConfig "report" = some report ∧
      dictGet report "ga_property_code" = some (JPrim.num 42)) ∧
    load_config exampleBadConfig exampleCliNone = some exampleBadConfig :=
  ⟨⟨_, rfl, rfl⟩, rfl⟩

/-- C6, amended: configuration resolution fails — with an uncaught
`KeyError`, there is no `ConfigurationError` in the code — exactly when
the report section or one of the five required keys is absent; a present
value that is not a string is not rejected. -/
theorem claim6_missing_key_fails :
    ∀ (config_dict : ConfigDict) (cli : CLIArgs),
      load_config config_dict cli = none ↔
        dictGet config_dict "report" = none ∨
        ∃ report, dictGet config_dict "report" = some report ∧
          ∃ k ∈ requiredKeys, dictGet report k = none :=
  load_config_none_iff

theorem claim6_missing_key_fails_witness :
    load_config exampleMissingConfig exampleCliNone = none :=
  (claim6_missing_key_fails exampleMissingConfig exampleCliNone).mpr
    (Or.inr ⟨_, rfl, "css_directory", by decide, rfl⟩)

/-- C9: because every option is pre-seeded with the file default, the
conditional merge of `load_config` equals the unconditional assignment of
the parsed values, and every resolved report key equals the parsed
argument value for that key. -/
theorem claim9_merge_refinement :
    ∀ (config_dict : ConfigDict) (cli : CLIArgs),
      load_config config_dict cli = load_config_uncond config_dict cli ∧
      (∀ report cfg', dictGet config_dict "report" = some report →
        load_config config_dict cli = some cfg' →
        ∃ report', dictGet cfg' "report" = some report' ∧
          ∀ k ∈ requiredKeys, dictGet report' k = parsedArg report cli k) := by
  intro config_dict cli
  constructor
  · unfold load_config load_config_uncond
    simp only [mergeKey_eq_dictSet]
  · intro report cfg' hrep h
    obtain ⟨r', hr', hkeys, _, _⟩ :=
      load_config_core config_dict cli report cfg' hrep h
    exact ⟨r', hr', hkeys⟩

theorem claim9_merge_refinement_witness :
    load_config exampleConfig exampleCliCss
      = load_config_uncond exampleConfig exampleCliCss ∧
    (∃ report', dictGet exampleResolved "report" = some report' ∧
      ∀ k ∈ requiredKeys,
        dictGet report' k = parsedArg exampleReport exampleCliCss k) :=
  ⟨(claim9_merge_refinement exampleConfig exampleCliCss).1,
   (claim9_merge_refinement exampleConfig exampleCliCss).2
     exampleReport exampleResolved rfl rfl⟩

/-- C10: configuration resolution is a frame over everything but the five
report keys: every top-level entry other than `"report"` — the database
section in particular — and every report entry outside the five keys is
returned unchanged. -/
theorem claim10_frame :
    ∀ (config_dict : ConfigDict) (cli : CLIArgs) (cfg' : ConfigDict),
      load_config config_dict cli = some cfg' →
      (∀ key, key ≠ "report" → dictGet cfg' key = dictGet config_dict key) ∧
      dictGet cfg' "database" = dictGet config_dict "database" ∧
      (∀ report report', dictGet config_dict "report" = some report →
        dictGet cfg' "report" = some report' →
        ∀ k, k ∉ requiredKeys → dictGet report' k = dictGet report k) := by
  intro config_dict cli cfg' h
  obtain ⟨report, hr⟩ : ∃ report, dictGet config_dict "report" = some report := by
    cases hget : dictGet config_dict "report" with
    | none =>
        have hnone : load_config config_dict cli = none :=
          (load_config_none_iff config_dict cli).mpr (Or.inl hget)
        rw [hnone] at h
        exact Option.noConfusion h
    | some r => exact ⟨r, rfl⟩
  obtain ⟨r', hr', _, hframe, htop⟩ :=
    load_config_core config_dict cli report cfg' hr h
  refine ⟨htop, htop "database" (by decide), ?_⟩
  intro rep rep' hrep1 hrep2 k hk
  obtain rfl : rep = report := Option.some.inj (hrep1.symm.trans hr)
  obtain rfl : rep' = r' := Option.some.inj (hrep2.symm.trans hr')
  exact hframe k hk

theorem claim10_frame_witness :
    dictGet exampleResolved "database" = dictGet exampleConfig "database" :=
  (claim10_frame exampleConfig exampleCliCss exampleResolved rfl).2.1

/-- C7: when the report destination's handle is not writable, the
descriptive message is printed and the write is skipped while the call
still succeeds (log-and-continue); failures of the CSS copy step —
missing source or permission error — propagate as fatal errors. -/
theorem claim7_write_skip_css_fatal :
    (∀ (doc : String) (rs : ReportSettings) (fs : FileSys) (c : String),
      pathJoin rs.output_directory rs.output_filename ∈ fs.unwritable →
      dictGet fs.files (pathJoin rs.css_directory rs.css_filename) = some c →
      pathJoin rs.css_directory rs.css_filename ∉ fs.unreadable →
      pathJoin rs.output_directory rs.css_filename
        ≠ pathJoin rs.output_directory rs.output_filename →
      ∃ fs' logs, generate_output_files doc rs fs = Except.ok (fs', logs) ∧
        ("Error: " ++ pathJoin rs.output_directory rs.output_filename
          ++ " is not writable") ∈ logs ∧
        dictGet fs'.files (pathJoin rs.output_directory rs.output_filename)
          = dictGet fs.files (pathJoin rs.output_directory rs.output_filename)) ∧
    (∀ (doc : String) (rs : ReportSettings) (fs : FileSys),
      dictGet fs.files (pathJoin rs.css_directory rs.css_filename) = none →
      pathJoin rs.css_directory rs.css_filename
        ≠ pathJoin rs.output_directory rs.output_filename →
      generate_output_files doc rs fs = Except.error CopyError.missingSource) ∧
    (∀ (doc : String) (rs : ReportSettings) (fs : FileSys) (c : String),
      dictGet fs.files (pathJoin rs.css_directory rs.css_filename) = some c →
      pathJoin rs.css_directory rs.css_filename ∈ fs.unreadable →
      pathJoin rs.css_directory rs.css_filename
        ≠ pathJoin rs.output_directory rs.output_filename →
      generate_output_files doc rs fs = Except.error CopyError.permissionDenied) := by
  refine ⟨?_, generate_output_files_missing, generate_output_files_denied⟩
  intro doc rs fs c hw hc hr hdest
  refine ⟨_, _, generate_output_files_skip doc rs fs c hw hc hr, by simp, ?_⟩
  exact dictGet_dictSet_ne _ _ _ _ (Ne.symm hdest)

theorem claim7_write_skip_css_fatal_witness :
    (∃ fs' logs,
      generate_output_files "doc" exampleSettings exampleFsUnwritable
        = Except.ok (fs', logs) ∧
      ("Error: " ++ pathJoin "./output" "report.html" ++ " is not writable") ∈ logs ∧
      dictGet fs'.files (pathJoin "./output" "report.html")
        = dictGet exampleFsUnwritable.files (pathJoin "./output" "report.html")) ∧
    generate_output_files "doc" exampleSettings exampleFsNoCss
      = Except.error CopyError.missingSource ∧
    generate_output_files "doc" exampleSettings exampleFsCssDenied
      = Except.error CopyError.permissionDenied :=
  ⟨claim7_write_skip_css_fatal.1 "doc" exampleSettings exampleFsUnwritable "body"
    (by decide) (by decide) (by decide) (by decide),
   claim7_write_skip_css_fatal.2.1 "doc" exampleSettings exampleFsNoCss
    (by decide) (by decide),
   claim7_write_skip_css_fatal.2.2 "doc" exampleSettings exampleFsCssDenied "body"
    (by decide) (by decide) (by decide)⟩

/-- C8: publishing ensures the output directory exists (creating it only
when absent), writes the rendered document to
`output_directory/output_filename`, and a second call with the same
settings succeeds by overwriting the previously written file. -/
theorem claim8_publish_overwrites :
    ∀ (doc doc2 : String) (rs : ReportSettings) (fs : FileSys) (c : String),
      pathJoin rs.output_directory rs.output_filename ∉ fs.unwritable →
      dictGet fs.files (pathJoin rs.css_directory rs.css_filename) = some c →
      pathJoin rs.css_directory rs.css_filename ∉ fs.unreadable →
      pathJoin rs.css_directory rs.css_filename
        ≠ pathJoin rs.output_directory rs.output_filename →
      pathJoin rs.output_directory rs.css_filename
        ≠ pathJoin rs.output_directory rs.output_filename →
      ∃ fs', generate_output_files doc rs fs = Except.ok (fs', []) ∧
        rs.output_directory ∈ fs'.dirs ∧
        dictGet fs'.files (pathJoin rs.output_directory rs.output_filename)
          = some doc ∧
        (rs.output_directory ∈ fs.dirs → fs'.dirs = fs.dirs) ∧
        ∃ fs'', generate_output_files doc2 rs fs' = Except.ok (fs'', []) ∧
          dictGet fs''.files (pathJoin rs.output_directory rs.output_filename)
            = some doc2 := by
  intro doc doc2 rs fs c hw hc hr hsrc hdest
  refine ⟨_, generate_output_files_ok doc rs fs c hw hc hr hsrc, ?_, ?_, ?_, ?_⟩
  · by_cases hdir : rs.output_directory ∈ fs.dirs <;> simp [hdir]
  · show dictGet
        (dictSet (dictSet fs.files (pathJoin rs.output_directory rs.output_filename) doc)
          (pathJoin rs.output_directory rs.css_filename) c)
        (pathJoin rs.output_directory rs.output_filename) = some doc
    rw [dictGet_dictSet_ne _ _ _ _ (Ne.symm hdest), dictGet_dictSet_self]
  · intro hdir
    simp [hdir]
  · have hc' : dictGet
        (dictSet (dictSet fs.files (pathJoin rs.output_directory rs.output_filename) doc)
          (pathJoin rs.output_directory rs.css_filename) c)
        (pathJoin rs.css_directory rs.css_filename) = some c := by
      by_cases hcd : pathJoin rs.css_directory rs.css_filename
          = pathJoin rs.output_directory rs.css_filename
      · rw [hcd, dictGet_dictSet_self]
      · rw [dictGet_dictSet_ne _ _ _ _ hcd, dictGet_dictSet_ne _ _ _ _ hsrc]
        exact hc
    refine ⟨_, generate_output_files_ok doc2 rs _ c hw hc' hr hsrc, ?_⟩
    simp only [dictGet_dictSet_ne _ _ _ _ (Ne.symm hdest), dictGet_dictSet_self]

theorem claim8_publish_overwrites_witness :
    ∃ fs', generate_output_files "first" exampleSettings exampleFs
        = Except.ok (fs', []) ∧
      "./output" ∈ fs'.dirs ∧
      dictGet fs'.files (pathJoin "./output" "report.html") = some "first" ∧
      ("./output" ∈ exampleFs.dirs → fs'.dirs = exampleFs.dirs) ∧
      ∃ fs'', generate_output_files "second" exampleSettings fs'
          = Except.ok (fs'', []) ∧
        dictGet fs''.files (pathJoin "./output" "report.html") = some "second" :=
  claim8_publish_overwrites "first" "second" exampleSettings exampleFs "body"
    (by decide) (by decide) (by decide) (by decide) (by decide)

end WWDTM
